import Mathlib

/-!
Verification of the tiered layout/bundle engine of `scripts/generate-fixtures.py`
(`TieredBundleExporter`).  The Python source is shallowly embedded: chunks and
relationships become Lean structures whose `Option` fields model optional
attributes (`none` = attribute absent; Python attributes explicitly set to
`None` are likewise modelled as absent), Python dicts become association lists
built with replace-or-append insertion, and float arithmetic is idealised as
exact rationals, with the transcendental primitives (`math.sqrt`, `math.cos`,
`math.sin`, `math.pi`, `hash`) supplied by an abstract `MathEnv` and the
global `random` generator by an abstract state-threaded `RandEnv`.
-/

namespace SemanticLens

/-- Auxiliary for `strContains`: is the first list a prefix of the second? -/
def charPrefixOf : List Char → List Char → Bool
  | [], _ => true
  | _ :: _, [] => false
  | a :: as, b :: bs => a == b && charPrefixOf as bs

/-- Auxiliary for `strContains`: contiguous-sublist test on characters. -/
def charInfixOf (sub : List Char) : List Char → Bool
  | [] => charPrefixOf sub []
  | b :: bs => charPrefixOf sub (b :: bs) || charInfixOf sub bs

/-- Python `sub in s` substring test. -/
def strContains (s sub : String) : Bool :=
  charInfixOf sub.toList s.toList

/-- Python `s.startswith(pre)`. -/
def strStartsWith (s pre : String) : Bool :=
  charPrefixOf pre.toList s.toList

/-- Python `s.lower()`. -/
def strToLower (s : String) : String :=
  String.mk (s.toList.map Char.toLower)

/-- Auxiliary for `strSplitOn`: split a character list at every occurrence of
the separator character. -/
def splitOnChar (sep : Char) : List Char → List (List Char)
  | [] => [[]]
  | c :: cs =>
    let rest := splitOnChar sep cs
    if c == sep then [] :: rest
    else
      match rest with
      | [] => [[c]]
      | r :: rs => (c :: r) :: rs

/-- Python `s.split(sep)` for a one-character separator (the source only ever
splits on `'/'`, `':'` and `'.'`). -/
def strSplitOn (s : String) (sep : Char) : List String :=
  (splitOnChar sep s.toList).map String.mk

/-- Python `sep.join(parts)`. -/
def strIntercalate (sep : String) : List String → String
  | [] => ""
  | [s] => s
  | s :: rest => s ++ sep ++ strIntercalate sep rest

/-- Python `s.split(sep)[-1]`: the part after the last separator
(`strSplitOn` always returns a non-empty list, so the default is
unreachable). -/
def lastSplitOn (s : String) (sep : Char) : String :=
  (strSplitOn s sep).getLastD s

/-- Python `s.rsplit(sep, 1)[0]`: everything before the last separator. -/
def beforeLastSplit (s : String) (sep : Char) : String :=
  strIntercalate (String.mk [sep]) ((strSplitOn s sep).dropLast)

/-- Deduplication keeping first occurrences, in order: the key order of a
Python dict built by repeated insertion. -/
def firstDedup (l : List String) : List String :=
  l.foldl (fun acc a => if a ∈ acc then acc else acc ++ [a]) []

/-- Python dict assignment `d[k] = v`: replace the value if the key is
present, otherwise append the new binding. -/
def dictInsert {β : Type} (d : List (String × β)) (k : String) (v : β) :
    List (String × β) :=
  if (d.map Prod.fst).contains k then
    d.map (fun p => if p.1 = k then (k, v) else p)
  else d ++ [(k, v)]

/-- Python float `a % b` for the angle computations: `a - b * floor(a / b)`
(on rationals; `a % 0 = a` here, matching that the source never passes 0). -/
def qmod (a b : ℚ) : ℚ := a - b * (⌊a / b⌋ : ℤ)

/-- The `metadata` dict of a chunk: the keys the engine reads
(`exports`, `imports`, `parent_id`). -/
structure ChunkMetadata where
  exports : List String := []
  imports : List String := []
  parent_id : Option String := none
deriving Repr, DecidableEq

/-- An input node ("chunk").  Each field models one attribute the engine
probes with `hasattr`; `none` means the attribute is absent. -/
structure Chunk where
  name : Option String := none
  qualified_route : Option (List String) := none
  metadata : Option ChunkMetadata := none
  file_path : Option String := none
  node_type : Option String := none
  kind : Option String := none
  chunk_id : Option String := none
  node_id : Option String := none
  parent_id : Option String := none
deriving Repr, DecidableEq

/-- An input edge ("relationship").  The source accessors `_get_rel_source_id`
/ `_get_rel_target_id` / `_get_rel_kind` normalise the two attribute spellings
(`source_chunk_id` vs `source_id`, …); the embedding keeps the normalised
form directly. -/
structure Relationship where
  source_chunk_id : String
  target_chunk_id : String
  kind : String := "related"
deriving Repr, DecidableEq

/-- Accessor `_get_rel_source_id`. -/
def get_rel_source_id (r : Relationship) : String := r.source_chunk_id

/-- Accessor `_get_rel_target_id`. -/
def get_rel_target_id (r : Relationship) : String := r.target_chunk_id

/-- Accessor `_get_rel_kind`. -/
def get_rel_kind (r : Relationship) : String := r.kind

/-- Accessor `_get_chunk_kind`: `node_type or 'unknown'` when the `node_type`
attribute exists, else `kind or 'unknown'` when `kind` exists, else
`'unknown'`. -/
def get_chunk_kind (c : Chunk) : String :=
  match c.node_type with
  | some nt => if nt = "" then "unknown" else nt
  | none =>
    match c.kind with
    | some k => if k = "" then "unknown" else k
    | none => "unknown"

/-- Accessor `_get_chunk_id`: `chunk_id` if present and truthy, else `node_id` if
present and truthy, else the literal `'unknown'`. -/
def get_chunk_id (c : Chunk) : String :=
  match c.chunk_id with
  | some s =>
    if s = "" then
      match c.node_id with
      | some t => if t = "" then "unknown" else t
      | none => "unknown"
    else s
  | none =>
    match c.node_id with
    | some t => if t = "" then "unknown" else t
    | none => "unknown"

/-- The synthetic-anonymous marker prefix skipped by name resolution. -/
def anonMarker : String := "anon@"

/-- One entry of the qualified route, as scanned by `_get_chunk_name`:
for `"<kind>:<name>"` entries take the part after the last `:` when usable,
otherwise the whole entry when usable; unusable entries are skipped. -/
def routePartName (p : String) : Option String :=
  if strContains p ":" then
    let n := lastSplitOn p ':'
    if n ≠ "" ∧ ¬ strStartsWith n anonMarker then some n else none
  else
    if p ≠ "" ∧ ¬ strStartsWith p anonMarker then some p else none

/-- Steps 1-5 of `_get_chunk_name` (explicit name, qualified route, metadata
exports, metadata imports, file-path + node-type derivation), returning
`none` exactly when control falls through to the chunk-id fallback. -/
def resolveEarlyName (c : Chunk) : Option String :=
  let step2 : Option String :=
    match c.qualified_route with
    | some route =>
      if route ≠ [] then route.reverse.findSome? routePartName else none
    | none => none
  let step34 : Option String :=
    match c.metadata with
    | some m =>
      if m.exports ≠ [] ∧ m.exports.headD "" ≠ "" then some (m.exports.headD "")
      else if m.imports ≠ [] ∧ m.imports.headD "" ≠ "" then
        let imp := m.imports.headD ""
        if strContains imp "/" then some (lastSplitOn imp '/') else some imp
      else none
    | none => none
  let step5 : Option String :=
    match c.file_path, c.node_type with
    | some fp, some nt0 =>
      let file_name := lastSplitOn fp '/'
      let base_name :=
        if strContains file_name "." then beforeLastSplit file_name '.' else file_name
      let nt := if nt0 = "" then "unknown" else nt0
      if strContains (strToLower nt) "import" then some ("⬇" ++ base_name)
      else if strContains (strToLower nt) "export" then some ("⬆" ++ base_name)
      else some base_name
    | _, _ => none
  match c.name with
  | some n =>
    if n ≠ "" ∧ ¬ strStartsWith n anonMarker then some n
    else (step2 <|> step34 <|> step5)
  | none => step2 <|> step34 <|> step5

/-- Final fallback of `_get_chunk_name`: the chunk id, or its part after the
last `:`, or - when the id is empty - the default (`'unnamed'` in the
source): `return chunk_id.split(':')[-1] if ... ; return chunk_id or dflt`. -/
def finalIdName (dflt : String) (c : Chunk) : String :=
  let cid := get_chunk_id c
  if cid ≠ "" ∧ strContains cid ":" then lastSplitOn cid ':'
  else if cid ≠ "" then cid
  else dflt

/-- Resolver `_get_chunk_name` with the literal of its last line (`'unnamed'`) made a
parameter, so that unreachability of that literal can be stated as
default-independence. -/
def get_chunk_name_aux (dflt : String) (c : Chunk) : String :=
  match resolveEarlyName c with
  | some n => n
  | none => finalIdName dflt c

/-- Resolver `_get_chunk_name`. -/
def get_chunk_name (c : Chunk) : String :=
  get_chunk_name_aux "unnamed" c

/-- The `KIND_TO_TIER` lookup table.  The Python dict literal repeats a few
keys (`import_statement`, `class_definition`, `function_definition`) with
identical values; the repetitions are dropped here, which leaves the mapping
unchanged. -/
def KIND_TO_TIER : List (String × String) := [
  ("module", "galaxy"),
  ("namespace", "galaxy"),
  ("package", "galaxy"),
  ("class", "system"),
  ("interface", "system"),
  ("struct", "system"),
  ("enum", "system"),
  ("trait", "system"),
  ("impl", "system"),
  ("function", "system"),
  ("method", "planet"),
  ("constructor", "planet"),
  ("property", "planet"),
  ("field", "planet"),
  ("variable", "planet"),
  ("constant", "planet"),
  ("parameter", "planet"),
  ("import_statement", "galaxy"),
  ("export_statement", "galaxy"),
  ("class_declaration", "system"),
  ("class_definition", "system"),
  ("function_declaration", "system"),
  ("function_definition", "system"),
  ("arrow_function", "system"),
  ("function_expression", "system"),
  ("decorated_definition", "system"),
  ("method_definition", "planet"),
  ("variable_declarator", "planet"),
  ("lexical_declaration", "planet"),
  ("assignment_expression", "planet"),
  ("import_from_statement", "galaxy"),
  ("assignment", "planet"),
  ("use_declaration", "galaxy"),
  ("mod_item", "galaxy"),
  ("struct_item", "system"),
  ("enum_item", "system"),
  ("impl_item", "system"),
  ("trait_item", "system"),
  ("function_item", "system"),
  ("let_declaration", "planet"),
  ("const_item", "planet")]

/-- Classifier `_get_tier_for_kind`: lowercase the kind (empty/falsy kinds become
`'unknown'`) and look it up, defaulting to `'planet'`. -/
def get_tier_for_kind (kind : String) : String :=
  let kind_lower := if kind = "" then "unknown" else strToLower kind
  ((KIND_TO_TIER.lookup kind_lower).getD "planet")

/-- The tier a chunk is assigned to by `build_tiers`. -/
def chunkTier (c : Chunk) : String :=
  get_tier_for_kind (get_chunk_kind c)

/-- The chunk list of one of the tiers `galaxy` / `system` / `planet` after
`build_tiers` (chunks are appended in input order; the `universe` tier holds
only the synthetic directory aggregates, since no kind maps to it). -/
def tiersOf (chunks : List Chunk) (t : String) : List Chunk :=
  chunks.filter (fun c => chunkTier c == t)

/-- The chunk's file path, as accessed by the pipeline (`chunk.file_path`,
a required attribute per the input contract; an absent attribute, which
would raise `AttributeError` in Python, is modelled as `""`). -/
def chunkFilePath (c : Chunk) : String :=
  c.file_path.getD ""

/-- The non-hidden directory segments of a file path:
`[p for p in file_path.split('/')[:-1] if p and not p.startswith('.')]`. -/
def dirSegments (file_path : String) : List String :=
  ((strSplitOn file_path '/').dropLast).filter
    (fun p => decide (p ≠ "") && !(strStartsWith p "."))

/-- Key extraction `_extract_directory`: the last `depth` non-hidden directory segments
joined with `/`, or `'root'` when there are none. -/
def extract_directory (file_path : String) (depth : ℕ) : String :=
  let dir_parts := dirSegments file_path
  if dir_parts.length > 0 then
    let path_parts := dir_parts.drop (dir_parts.length - min depth dir_parts.length)
    if path_parts ≠ [] then strIntercalate "/" path_parts else "root"
  else "root"

/-- The directory key of a chunk (`_extract_directory` at its default
`depth = 2`, as used by `build_tiers` and `build_parent_maps`). -/
def chunkDir (c : Chunk) : String :=
  extract_directory (chunkFilePath c) 2

/-- The distinct directory keys, in the insertion order of the
`dir_to_chunks` defaultdict built by `build_tiers`. -/
def dirKeys (chunks : List Chunk) : List String :=
  firstDedup (chunks.map chunkDir)

/-- A synthetic `universe`-tier node emitted by
`_create_directory_aggregates`. -/
structure DirectoryAggregate where
  node_id : String
  name : String
  kind : String
  file : String
  full_path : String
  node_count : ℕ
  is_aggregate : Bool
  member_files : List String
deriving Repr, DecidableEq

/-- Aggregation `_create_directory_aggregates`: one aggregate per distinct directory key,
in key order, counting and listing the chunks grouped under that key by
`build_tiers` (`member_files` is a Python `set`; it is modelled as the
first-occurrence deduplication of the members' file paths). -/
def create_directory_aggregates (chunks : List Chunk) : List DirectoryAggregate :=
  (dirKeys chunks).map (fun d =>
    let members := chunks.filter (fun c => chunkDir c == d)
    { node_id := "dir:" ++ d
      name := if strContains d "/" then lastSplitOn d '/' else d
      kind := "directory"
      file := d
      full_path := d
      node_count := members.length
      is_aggregate := true
      member_files := firstDedup (members.map chunkFilePath) })

/-- The node ids of a tier, as collected into `node_ids_in_tier` by `export`
(aggregate ids for `universe`, chunk ids elsewhere). -/
def levelIds (chunks : List Chunk) (t : String) : List String :=
  if t = "universe" then (create_directory_aggregates chunks).map (fun a => a.node_id)
  else (tiersOf chunks t).map get_chunk_id

/-- One step of a Python-dict building loop: the element either inserts one
binding or is skipped. -/
def dstep {α β : Type} (upd : α → Option (String × β)) (m : List (String × β))
    (c : α) : List (String × β) :=
  match upd c with
  | some kv => dictInsert m kv.1 kv.2
  | none => m

/-- A Python-dict building loop: each element either inserts one binding or
is skipped.  All the engine's dict-building loops are instances of this. -/
def dictFold {α β : Type} (upd : α → Option (String × β)) (l : List α) :
    List (String × β) :=
  l.foldl (dstep upd) []

/-- Mapping `build_parent_maps`, galaxy part: every galaxy chunk is mapped to the
aggregate id of its directory key. -/
def galaxyParentMap (chunks : List Chunk) : List (String × String) :=
  dictFold (fun c => some (get_chunk_id c, "dir:" ++ chunkDir c))
    (tiersOf chunks "galaxy")

/-- Mapping `build_parent_maps`, `file_to_module` dict: file path of each galaxy
chunk mapped to its id (later chunks overwrite earlier ones). -/
def fileToModule (chunks : List Chunk) : List (String × String) :=
  dictFold (fun c => some (chunkFilePath c, get_chunk_id c))
    (tiersOf chunks "galaxy")

/-- Mapping `build_parent_maps`, system part: a system chunk is mapped to the galaxy
chunk registered for its file path, when one exists. -/
def systemParentMap (chunks : List Chunk) : List (String × String) :=
  dictFold
    (fun c =>
      match (fileToModule chunks).lookup (chunkFilePath c) with
      | some parent => some (get_chunk_id c, parent)
      | none => none)
    (tiersOf chunks "system")

/-- The parent reference consulted for a planet chunk: the truthy
`parent_id` attribute, else the truthy `parent_id` entry of its metadata. -/
def chunkParentRef (c : Chunk) : Option String :=
  let metaParent : Option String :=
    match c.metadata with
    | some m =>
      match m.parent_id with
      | some p => if p = "" then none else some p
      | none => none
    | none => none
  match c.parent_id with
  | some p => if p = "" then metaParent else some p
  | none => metaParent

/-- Mapping `build_parent_maps`, planet part: the parent reference is recorded
verbatim, without checking that it names a system-tier node. -/
def planetParentMap (chunks : List Chunk) : List (String × String) :=
  dictFold
    (fun c =>
      match chunkParentRef c with
      | some p => some (get_chunk_id c, p)
      | none => none)
    (tiersOf chunks "planet")

/-- The transcendental primitives used by the layout code (`math.sqrt`,
`math.cos`, `math.sin`, `math.pi`, and Python's string `hash` used for the
cluster phase offset), abstracted: no claim below depends on their values. -/
structure MathEnv where
  sqrt : ℚ → ℚ
  cos : ℚ → ℚ
  sin : ℚ → ℚ
  pi : ℚ
  hashStr : String → ℤ

/-- The global `random` generator used by `_compute_parent_anchored_positions`
(`random.uniform(lo, hi)`), modelled as an abstract state-threaded source. -/
structure RandEnv (σ : Type) where
  uniform : σ → ℚ → ℚ → ℚ × σ

/-- A 2D position. -/
abbrev Pt := ℚ × ℚ

/-- A positions dict (`node_id -> (x, y)`), as an insertion-ordered
association list with unique keys. -/
abbrev PosMap := List (String × Pt)

/-- Initial position of the node at index `i` (`_compute_tier_layout`,
initialization loop): a golden-angle spiral around the parent position when
parent data is available, otherwise a spiral around the origin with a
tier-dependent spread. -/
def initPosition (env : MathEnv) (tier_name : String) (n : ℕ) (parentPos : PosMap)
    (pm : List (String × String)) (i : ℕ) (nid : String) : Pt :=
  let anchored : Option Pt :=
    if parentPos ≠ [] ∧ pm ≠ [] then
      match pm.lookup nid with
      | some pid =>
        match parentPos.lookup pid with
        | some ppos =>
          let angle := qmod ((i : ℚ) * 2.39996) (2 * env.pi)
          let base_radius : ℚ := 200 + (n : ℚ) / 10
          let radius := base_radius + ((i % 20 : ℕ) : ℚ) * 15
          some (ppos.1 + radius * env.cos angle, ppos.2 + radius * env.sin angle)
        | none => none
      | none => none
    else none
  match anchored with
  | some p => p
  | none =>
    let angle := qmod ((i : ℚ) * 2.39996) (2 * env.pi)
    let base_spread : ℚ := if tier_name = "universe" ∨ tier_name = "galaxy" then 500 else 300
    let radius := base_spread * env.sqrt (((i : ℚ) + 1) / ((max n 1 : ℕ) : ℚ))
    (radius * env.cos angle, radius * env.sin angle)

/-- The initial positions dict of `_compute_tier_layout`. -/
def computeTierInit (env : MathEnv) (tier_name : String) (ids : List String)
    (parentPos : PosMap) (pm : List (String × String)) : PosMap :=
  dictFold
    (fun p => some (p.2, initPosition env tier_name ids.length parentPos pm p.1 p.2))
    ids.enum

/-- Both endpoints of a relationship lie in the given node-id set. -/
def relBothIn (keys : List String) (r : Relationship) : Bool :=
  keys.contains (get_rel_source_id r) && keys.contains (get_rel_target_id r)

/-- The adjacency set of a node (`_compute_tier_layout`): the symmetric
neighbourhood along relationships whose endpoints are both in the tier. -/
def adjacency (rels : List Relationship) (keys : List String) (nid : String) :
    Finset String :=
  ((rels.filter (fun r => relBothIn keys r &&
      (get_rel_source_id r == nid || get_rel_target_id r == nid))).map
    (fun r => if get_rel_source_id r == nid then get_rel_target_id r
              else get_rel_source_id r)).toFinset

/-- Repulsion exerted on a node at `p` by a node at `q` (zero beyond the
1500-unit interaction radius). -/
def repulsionContrib (env : MathEnv) (k_repel : ℚ) (p q : Pt) : Pt :=
  let dx := p.1 - q.1
  let dy := p.2 - q.2
  let dist := env.sqrt (dx * dx + dy * dy) + 0.1
  if dist < 1500 then
    let force := k_repel / (dist * dist)
    (dx / dist * force, dy / dist * force)
  else (0, 0)

/-- The population-dependent repulsion constant of `_compute_tier_layout`. -/
def baseRepel (n : ℕ) : ℚ :=
  if n < 100 then 5000 else if n < 1000 then 2000 else 1000

/-- Total repulsion on `nid`: the sum of pairwise contributions from every
other node, read from the start-of-iteration positions `D`. -/
def repulsionForce (env : MathEnv) (k_repel : ℚ) (D : PosMap) (nid : String) (p : Pt) : Pt :=
  ((D.filter (fun q => q.1 != nid)).map (fun q => repulsionContrib env k_repel p q.2)).sum

/-- Spring attraction exerted on a node at `p` by a neighbour at `q`
(`k_attract = 0.005`). -/
def attractionContrib (env : MathEnv) (p q : Pt) : Pt :=
  let dx := q.1 - p.1
  let dy := q.2 - p.2
  let dist := env.sqrt (dx * dx + dy * dy) + 0.1
  let force := (0.005 : ℚ) * dist
  (dx / dist * force, dy / dist * force)

/-- Total attraction on `nid` along its adjacency set (a Python `set`:
modelled as a `Finset` sum), positions read from `D`. -/
def attractionForce (env : MathEnv) (rels : List Relationship) (keys : List String)
    (D : PosMap) (nid : String) (p : Pt) : Pt :=
  (adjacency rels keys nid).sum (fun nb =>
    match D.lookup nb with
    | some q => attractionContrib env p q
    | none => (0, 0))

/-- Gravity toward the node's parent position when one is known, else toward
the origin (`k_gravity = 0.01` with parent positions, `0.005` without). -/
def gravityForce (parentPos : PosMap) (pm : List (String × String)) (nid : String)
    (p : Pt) : Pt :=
  let k_gravity : ℚ := if parentPos ≠ [] then 0.01 else 0.005
  let center : Pt :=
    if parentPos ≠ [] ∧ pm ≠ [] then
      match pm.lookup nid with
      | some pid =>
        match parentPos.lookup pid with
        | some q => q
        | none => (0, 0)
      | none => (0, 0)
    else (0, 0)
  (k_gravity * (center.1 - p.1), k_gravity * (center.2 - p.2))

/-- Force integration with the linear cooling cap
(`max_displacement = 100 * cooling`). -/
def applyDisplacement (env : MathEnv) (max_displacement : ℚ) (p f : Pt) : Pt :=
  let mag := env.sqrt (f.1 * f.1 + f.2 * f.2) + 0.1
  let displacement := min mag max_displacement
  (p.1 + f.1 / mag * displacement, p.2 + f.2 / mag * displacement)

/-- Update of a single node for one iteration: the accumulated force
(repulsion + attraction + gravity, all read from the start-of-iteration
positions `D`) applied under the cooling cap. -/
def stepEntry (env : MathEnv) (rels : List Relationship) (parentPos : PosMap)
    (pm : List (String × String)) (n : ℕ) (keys : List String)
    (iterations iteration : ℕ) (D : PosMap) (e : String × Pt) : String × Pt :=
  (e.1, applyDisplacement env (100 * (1 - (iteration : ℚ) / (iterations : ℚ))) e.2
    (repulsionForce env (baseRepel n) D e.1 e.2 +
     attractionForce env rels keys D e.1 e.2 +
     gravityForce parentPos pm e.1 e.2))

/-- One force-simulation iteration of `_compute_tier_layout`: all forces are
accumulated from the start-of-iteration positions `D` (the source fills a
`forces` dict from the unmodified `positions` dict in three passes), and only
then is every position updated. -/
def simStep (env : MathEnv) (rels : List Relationship) (parentPos : PosMap)
    (pm : List (String × String)) (n : ℕ) (keys : List String)
    (iterations iteration : ℕ) (D : PosMap) : PosMap :=
  D.map (stepEntry env rels parentPos pm n keys iterations iteration D)

/-- The full iteration loop of the force simulation (adjacency is built once,
from the initial key set, as in the source). -/
def simIterate (env : MathEnv) (rels : List Relationship) (parentPos : PosMap)
    (pm : List (String × String)) (n iters : ℕ) (D0 : PosMap) : PosMap :=
  (List.range iters).foldl
    (fun D it => simStep env rels parentPos pm n (D0.map Prod.fst) iters it D) D0

/-- The parent of a node id, as probed by the clustering strategy
(`parent_map and node_id in parent_map`). -/
def parentOfId (pm : List (String × String)) (nid : String) : Option String :=
  if pm ≠ [] then pm.lookup nid else none

/-- The distinct parent ids, in the insertion order of the
`parent_to_nodes` grouping dict of `_compute_parent_anchored_positions`. -/
def groupParentKeys (pm : List (String × String)) (ids : List String) : List String :=
  firstDedup (ids.filterMap (parentOfId pm))

/-- The children grouped under one parent, in input order. -/
def childIdsOf (pm : List (String × String)) (ids : List String) (p : String) :
    List String :=
  ids.filter (fun nid => parentOfId pm nid == some p)

/-- The nodes with no resolved parent. -/
def orphanIds (pm : List (String × String)) (ids : List String) : List String :=
  ids.filter (fun nid => (parentOfId pm nid).isNone)

/-- A positioning loop that, for each indexed node id, inserts one position
into the dict while threading the random-generator state.  Both passes of
`_compute_parent_anchored_positions` have this shape. -/
def insertFold {σ : Type} (val : (PosMap × σ) → ℕ × String → Pt)
    (nst : (PosMap × σ) → ℕ × String → σ) (l : List (ℕ × String))
    (acc : PosMap × σ) : PosMap × σ :=
  l.foldl (fun a c => (dictInsert a.1 c.2 (val a c), nst a c)) acc

/-- Cluster layout for one parent's children
(`_compute_parent_anchored_positions`): a golden-angle spiral around the
parent's position (random fallback centre when the parent has no position),
radius `max(100, 30 * sqrt(n_children))` with spiral-outward factor and
jitter. -/
def anchoredGroup {σ : Type} (env : MathEnv) (u : RandEnv σ) (parentPos : PosMap)
    (acc : PosMap × σ) (p : String) (child_ids : List String) : PosMap × σ :=
  let centered : Pt × σ :=
    match (if parentPos ≠ [] then parentPos.lookup p else none) with
    | some q => (q, acc.2)
    | none =>
      let xr := u.uniform acc.2 (-1000) 1000
      let yr := u.uniform xr.2 (-1000) 1000
      ((xr.1, yr.1), yr.2)
  let px := centered.1.1
  let py := centered.1.2
  let n_children := child_ids.length
  let base_radius : ℚ := max 100 (30 * env.sqrt (n_children : ℚ))
  insertFold
    (fun acc2 ic =>
      let i := ic.1
      let angle := (i : ℚ) * 2.39996 + (((env.hashStr p).emod 100 : ℤ) : ℚ) / 100 * env.pi
      let spiral_factor : ℚ := 1 + ((i : ℚ) / ((max n_children 1 : ℕ) : ℚ)) * 0.5
      let jr := u.uniform acc2.2 0.9 1.1
      let r := base_radius * spiral_factor * jr.1
      (px + r * env.cos angle, py + r * env.sin angle))
    (fun acc2 _ => (u.uniform acc2.2 0.9 1.1).2)
    child_ids.enum
    (acc.1, centered.2)

/-- Grid placement of the orphan nodes, offset away from the main layout
(`_compute_parent_anchored_positions`, orphan pass). -/
def anchoredOrphans {σ : Type} (u : RandEnv σ) (orphans : List String)
    (acc : PosMap × σ) : PosMap × σ :=
  let n_orphans := orphans.length
  if n_orphans > 0 then
    let grid_size := Nat.sqrt n_orphans + 1
    let spacing : ℚ := 100
    let offset_x : ℚ := -((grid_size : ℚ) * spacing) / 2 + 2000
    let offset_y : ℚ := -((grid_size : ℚ) * spacing) / 2
    insertFold
      (fun acc2 inid =>
        let i := inid.1
        let row := i / grid_size
        let col := i % grid_size
        let jx := u.uniform acc2.2 (-20) 20
        let jy := (u.uniform (u.uniform acc2.2 (-20) 20).2 (-20) 20)
        (offset_x + (col : ℚ) * spacing + jx.1, offset_y + (row : ℚ) * spacing + jy.1))
      (fun acc2 _ => (u.uniform (u.uniform acc2.2 (-20) 20).2 (-20) 20).2)
      orphans.enum
      acc
  else acc

/-- Clustering `_compute_parent_anchored_positions`: O(n) hierarchical clustering with
no force computation (neither `repulsionForce` nor `attractionForce` occurs
in its call graph). -/
def compute_parent_anchored_positions {σ : Type} (env : MathEnv) (u : RandEnv σ)
    (ids : List String) (parentPos : PosMap) (pm : List (String × String))
    (st : σ) : PosMap × σ :=
  let grouped := (groupParentKeys pm ids).foldl
    (fun acc p => anchoredGroup env u parentPos acc p (childIdsOf pm ids p)) ([], st)
  anchoredOrphans u (orphanIds pm ids) grouped

/-- Dispatcher `_compute_tier_layout`: empty tiers are skipped (the positions dict stays
empty); tiers above 20000 nodes use parent-anchored clustering only; tiers
above 10000 nodes run the simulation with `max(10, iterations // 4)`
iterations; all others run it at the nominal count. -/
def compute_tier_layout {σ : Type} (env : MathEnv) (u : RandEnv σ)
    (rels : List Relationship) (tier_name : String) (ids : List String)
    (parentPos : PosMap) (pm : List (String × String)) (iterations : ℕ)
    (st : σ) : PosMap × σ :=
  if ids = [] then ([], st)
  else
    let n := ids.length
    if n > 20000 then
      compute_parent_anchored_positions env u ids parentPos pm st
    else
      let iters := if n > 10000 then max 10 (iterations / 4) else iterations
      (simIterate env rels parentPos pm n iters (computeTierInit env tier_name ids parentPos pm), st)

/-- The four per-tier position dicts held by the exporter. -/
structure TierPositions where
  universePos : PosMap
  galaxyPos : PosMap
  systemPos : PosMap
  planetPos : PosMap

/-- Pipeline `compute_positions`: the four tiers laid out in order, coarsest first,
each anchored to the previous tier's finished positions, with iteration
budgets `iterations`, `iterations // 2`, `iterations // 2`,
`iterations // 4` (the source's default for `iterations` is 100). -/
def compute_positions {σ : Type} (env : MathEnv) (u : RandEnv σ) (chunks : List Chunk)
    (rels : List Relationship) (iterations : ℕ) (st : σ) : TierPositions × σ :=
  let ru := compute_tier_layout env u rels "universe" (levelIds chunks "universe")
    [] [] iterations st
  let rg := compute_tier_layout env u rels "galaxy" (levelIds chunks "galaxy")
    ru.1 (galaxyParentMap chunks) (iterations / 2) ru.2
  let rs := compute_tier_layout env u rels "system" (levelIds chunks "system")
    rg.1 (systemParentMap chunks) (iterations / 2) rg.2
  let rp := compute_tier_layout env u rels "planet" (levelIds chunks "planet")
    rs.1 (planetParentMap chunks) (iterations / 4) rs.2
  ({ universePos := ru.1, galaxyPos := rg.1, systemPos := rs.1, planetPos := rp.1 }, rp.2)

/-- Rounding to 2 decimal places, as applied by `export` when serializing a
position (idealised on rationals; Python's float `round` resolves exact ties
to even, which exact decimals here resolve upward). -/
def round2 (q : ℚ) : ℚ :=
  ((round (q * 100) : ℤ) : ℚ) / 100

/-- The serialized `positions` block of one tier (`export`):
each coordinate rounded to 2 decimal places. -/
def exportPositions (D : PosMap) : PosMap :=
  D.map (fun e => (e.1, round2 e.2.1, round2 e.2.2))

/-- The serialized `edges` block of one tier (`export`): only relationships
with both endpoints among the tier's node ids are kept. -/
def exportEdges (rels : List Relationship) (ids : List String) :
    List (String × String × String) :=
  (rels.filter (fun r => relBothIn ids r)).map
    (fun r => (get_rel_source_id r, get_rel_target_id r, get_rel_kind r))

/-! ### Dictionary lemmas -/

theorem contains_iff_mem (l : List String) (k : String) :
    l.contains k = true ↔ k ∈ l := by
  induction l with
  | nil => simp
  | cons a t ih =>
    simp only [List.contains_cons, Bool.or_eq_true, beq_iff_eq, List.mem_cons, ih]

theorem keys_map_update {β : Type} (d : List (String × β)) (k : String) (v : β) :
    (d.map (fun p => if p.1 = k then (k, v) else p)).map Prod.fst =
      d.map Prod.fst := by
  induction d with
  | nil => rfl
  | cons a t ih =>
    simp only [List.map_cons, ih]
    by_cases ha : a.1 = k
    · simp [ha]
    · simp [ha]

theorem keys_dictInsert {β : Type} (d : List (String × β)) (k : String) (v : β) :
    (dictInsert d k v).map Prod.fst =
      if (d.map Prod.fst).contains k then d.map Prod.fst
      else d.map Prod.fst ++ [k] := by
  unfold dictInsert
  by_cases h : (d.map Prod.fst).contains k = true
  · rw [if_pos h, if_pos h, keys_map_update]
  · rw [if_neg h, if_neg h, List.map_append]
    rfl

theorem mem_keys_dictInsert {β : Type} (d : List (String × β)) (k v x) :
    x ∈ (dictInsert d k v).map Prod.fst ↔ x ∈ d.map Prod.fst ∨ x = k := by
  rw [keys_dictInsert]
  by_cases h : (d.map Prod.fst).contains k = true
  · rw [if_pos h]
    constructor
    · exact Or.inl
    · rintro (hx | rfl)
      · exact hx
      · exact (contains_iff_mem _ _).mp h
  · rw [if_neg h, List.mem_append, List.mem_singleton]

theorem nodup_keys_dictInsert {β : Type} (d : List (String × β)) (k v)
    (hd : (d.map Prod.fst).Nodup) :
    ((dictInsert d k v).map Prod.fst).Nodup := by
  rw [keys_dictInsert]
  by_cases h : (d.map Prod.fst).contains k = true
  · rw [if_pos h]; exact hd
  · rw [if_neg h]
    refine List.Nodup.append hd (List.nodup_singleton k) ?_
    intro a ha hk
    rw [List.mem_singleton] at hk
    exact h ((contains_iff_mem _ _).mpr (hk ▸ ha))

theorem mem_dictInsert {β : Type} (P : String × β → Prop) (d : List (String × β))
    (k v) (hd : ∀ e ∈ d, P e) (hkv : P (k, v)) :
    ∀ e ∈ dictInsert d k v, P e := by
  intro e he
  unfold dictInsert at he
  by_cases h : (d.map Prod.fst).contains k = true
  · rw [if_pos h, List.mem_map] at he
    obtain ⟨a, ha, rfl⟩ := he
    by_cases hak : a.1 = k
    · simpa [hak] using hkv
    · simpa [hak] using hd a ha
  · rw [if_neg h, List.mem_append, List.mem_singleton] at he
    rcases he with h1 | rfl
    · exact hd e h1
    · exact hkv

theorem keys_dstep {α β : Type} (upd : α → Option (String × β)) (m c) (x : String) :
    x ∈ (dstep upd m c).map Prod.fst ↔
      x ∈ m.map Prod.fst ∨ ∃ kv, upd c = some kv ∧ kv.1 = x := by
  unfold dstep
  cases h : upd c with
  | none => simp
  | some kv =>
    rw [mem_keys_dictInsert]
    constructor
    · rintro (hx | rfl)
      · exact Or.inl hx
      · exact Or.inr ⟨kv, rfl, rfl⟩
    · rintro (hx | ⟨kv', hkv', rfl⟩)
      · exact Or.inl hx
      · obtain rfl : kv = kv' := by injection hkv'
        exact Or.inr rfl

theorem nodup_keys_dstep {α β : Type} (upd : α → Option (String × β)) (m c)
    (hm : (m.map Prod.fst).Nodup) : ((dstep upd m c).map Prod.fst).Nodup := by
  unfold dstep
  cases upd c with
  | none => exact hm
  | some kv => exact nodup_keys_dictInsert _ _ _ hm

theorem mem_dstep {α β : Type} (P : String × β → Prop) (upd : α → Option (String × β))
    (m c) (hm : ∀ e ∈ m, P e) (hc : ∀ kv, upd c = some kv → P kv) :
    ∀ e ∈ dstep upd m c, P e := by
  unfold dstep
  cases h : upd c with
  | none => exact hm
  | some kv => exact mem_dictInsert P m kv.1 kv.2 hm (hc kv h)

theorem dictFold_entries_aux {α β : Type} (P : String × β → Prop)
    (upd : α → Option (String × β)) (l : List α) :
    ∀ (m : List (String × β)), (∀ e ∈ m, P e) →
      (∀ c ∈ l, ∀ kv, upd c = some kv → P kv) →
      ∀ e ∈ l.foldl (dstep upd) m, P e := by
  induction l with
  | nil => intro m hm _ e he; exact hm e he
  | cons a t ih =>
    intro m hm hl e he
    exact ih (dstep upd m a)
      (mem_dstep P upd m a hm (fun kv hkv => hl a (by simp) kv hkv))
      (fun c hc => hl c (by simp [hc])) e he

theorem dictFold_entries {α β : Type} (P : String × β → Prop)
    (upd : α → Option (String × β)) (l : List α)
    (hl : ∀ c ∈ l, ∀ kv, upd c = some kv → P kv) :
    ∀ e ∈ dictFold upd l, P e :=
  dictFold_entries_aux P upd l [] (by simp) hl

theorem dictFold_keys_nodup_aux {α β : Type} (upd : α → Option (String × β))
    (l : List α) :
    ∀ (m : List (String × β)), (m.map Prod.fst).Nodup →
      ((l.foldl (dstep upd) m).map Prod.fst).Nodup := by
  induction l with
  | nil => intro m hm; exact hm
  | cons a t ih => intro m hm; exact ih _ (nodup_keys_dstep upd m a hm)

theorem dictFold_keys_nodup {α β : Type} (upd : α → Option (String × β))
    (l : List α) : ((dictFold upd l).map Prod.fst).Nodup :=
  dictFold_keys_nodup_aux upd l [] (by simp)

theorem mem_keys_dictFold_aux {α β : Type} (upd : α → Option (String × β))
    (l : List α) :
    ∀ (m : List (String × β)) (x : String),
      x ∈ (l.foldl (dstep upd) m).map Prod.fst ↔
        x ∈ m.map Prod.fst ∨ ∃ c ∈ l, ∃ kv, upd c = some kv ∧ kv.1 = x := by
  induction l with
  | nil => intro m x; simp
  | cons a t ih =>
    intro m x
    simp only [List.foldl_cons, ih, keys_dstep, List.mem_cons]
    constructor
    · rintro ((h | h) | ⟨c, hc, h⟩)
      · exact Or.inl h
      · exact Or.inr ⟨a, Or.inl rfl, h⟩
      · exact Or.inr ⟨c, Or.inr hc, h⟩
    · rintro (h | ⟨c, hc | hc, h⟩)
      · exact Or.inl (Or.inl h)
      · exact Or.inl (Or.inr (hc ▸ h))
      · exact Or.inr ⟨c, hc, h⟩

theorem mem_keys_dictFold {α β : Type} (upd : α → Option (String × β))
    (l : List α) (x : String) :
    x ∈ (dictFold upd l).map Prod.fst ↔
      ∃ c ∈ l, ∃ kv, upd c = some kv ∧ kv.1 = x := by
  rw [dictFold, mem_keys_dictFold_aux]
  simp

theorem mem_firstDedup_aux (l : List String) :
    ∀ (acc : List String) (x : String),
      x ∈ l.foldl (fun acc a => if a ∈ acc then acc else acc ++ [a]) acc ↔
        x ∈ acc ∨ x ∈ l := by
  induction l with
  | nil => intro acc x; simp
  | cons a t ih =>
    intro acc x
    simp only [List.foldl_cons, ih, List.mem_cons]
    by_cases h : a ∈ acc
    · simp only [h, if_true]
      constructor
      · rintro (hx | hx)
        · exact Or.inl hx
        · exact Or.inr (Or.inr hx)
      · rintro (hx | rfl | hx)
        · exact Or.inl hx
        · exact Or.inl h
        · exact Or.inr hx
    · simp only [h, if_false, List.mem_append, List.mem_singleton]
      tauto

theorem mem_firstDedup (l : List String) (x : String) :
    x ∈ firstDedup l ↔ x ∈ l := by
  rw [firstDedup, mem_firstDedup_aux]
  simp

theorem nodup_firstDedup_aux (l : List String) :
    ∀ (acc : List String), acc.Nodup →
      (l.foldl (fun acc a => if a ∈ acc then acc else acc ++ [a]) acc).Nodup := by
  induction l with
  | nil => intro acc h; exact h
  | cons a t ih =>
    intro acc h
    simp only [List.foldl_cons]
    by_cases ha : a ∈ acc
    · simpa [ha] using ih acc h
    · refine ih _ ?_
      simp [List.nodup_append, h, ha]

theorem nodup_firstDedup (l : List String) : (firstDedup l).Nodup :=
  nodup_firstDedup_aux l [] (by simp)

/-! ### Supporting lemmas for the claims -/

theorem mem_of_lookup {β : Type} (l : List (String × β)) (k : String) (v : β)
    (h : l.lookup k = some v) : (k, v) ∈ l := by
  induction l with
  | nil => simp [List.lookup] at h
  | cons p t ih =>
    obtain ⟨a, b⟩ := p
    by_cases hk : k = a
    · simp only [List.lookup, hk, beq_self_eq_true] at h
      obtain rfl : b = v := by injection h
      exact hk ▸ List.mem_cons_self _ _
    · have hb : (k == a) = false := beq_eq_false_iff_ne.mpr hk
      simp only [List.lookup, hb] at h
      exact List.mem_cons_of_mem _ (ih h)

theorem str_data_append (p a : String) : (p ++ a).data = p.data ++ a.data := by
  cases p
  cases a
  rfl

theorem str_append_left_cancel (p a b : String) (h : p ++ a = p ++ b) : a = b := by
  have hd : (p ++ a).data = (p ++ b).data := by rw [h]
  rw [str_data_append, str_data_append] at hd
  have h2 := List.append_cancel_left hd
  cases a
  cases b
  exact congrArg String.mk h2

theorem aggregate_ids (chunks : List Chunk) :
    (create_directory_aggregates chunks).map (fun a => a.node_id) =
      (dirKeys chunks).map (fun d => "dir:" ++ d) := by
  unfold create_directory_aggregates
  rw [List.map_map]
  rfl

theorem mem_aggIds (chunks : List Chunk) (s : String) :
    s ∈ (create_directory_aggregates chunks).map (fun a => a.node_id) ↔
      ∃ c ∈ chunks, s = "dir:" ++ chunkDir c := by
  rw [aggregate_ids]
  constructor
  · intro hs
    obtain ⟨d, hd, rfl⟩ := List.mem_map.mp hs
    obtain ⟨c, hc, rfl⟩ := List.mem_map.mp ((mem_firstDedup _ _).mp hd)
    exact ⟨c, hc, rfl⟩
  · rintro ⟨c, hc, rfl⟩
    exact List.mem_map.mpr ⟨chunkDir c, (mem_firstDedup _ _).mpr
      (List.mem_map.mpr ⟨c, hc, rfl⟩), rfl⟩

theorem levelIds_universe (chunks : List Chunk) :
    levelIds chunks "universe" =
      (create_directory_aggregates chunks).map (fun a => a.node_id) := by
  unfold levelIds
  rw [if_pos rfl]

theorem levelIds_other (chunks : List Chunk) (t : String) (ht : t ≠ "universe") :
    levelIds chunks t = (tiersOf chunks t).map get_chunk_id := by
  unfold levelIds
  rw [if_neg ht]

/-- C2's galaxy obligation: the parent recorded for a galaxy chunk is the id
of an aggregate that `_create_directory_aggregates` really emits. -/
theorem galaxy_parent_exists (chunks : List Chunk) :
    ∀ e ∈ galaxyParentMap chunks, e.2 ∈ levelIds chunks "universe" := by
  refine dictFold_entries _ _ _ ?_
  intro c hc kv hkv
  obtain rfl : (get_chunk_id c, "dir:" ++ chunkDir c) = kv := by injection hkv
  rw [levelIds_universe, mem_aggIds]
  exact ⟨c, List.mem_of_mem_filter hc, rfl⟩

/-- Entries of the `file_to_module` dict all come from galaxy chunks. -/
theorem fileToModule_entries (chunks : List Chunk) :
    ∀ e ∈ fileToModule chunks, ∃ g ∈ tiersOf chunks "galaxy",
      e = (chunkFilePath g, get_chunk_id g) := by
  refine dictFold_entries _ _ _ ?_
  intro c hc kv hkv
  obtain rfl : (chunkFilePath c, get_chunk_id c) = kv := by injection hkv
  exact ⟨c, hc, rfl⟩

/-- C2's system obligation: the parent recorded for a system chunk is the id
of a galaxy-tier chunk. -/
theorem system_parent_exists (chunks : List Chunk) :
    ∀ e ∈ systemParentMap chunks, e.2 ∈ levelIds chunks "galaxy" := by
  refine dictFold_entries _ _ _ ?_
  intro c hc kv hkv
  cases hlk : (fileToModule chunks).lookup (chunkFilePath c) with
  | none => rw [hlk] at hkv; exact absurd hkv (by simp)
  | some parent =>
    rw [hlk] at hkv
    obtain rfl : (get_chunk_id c, parent) = kv := by injection hkv
    obtain ⟨g, hg, hge⟩ := fileToModule_entries chunks _
      (mem_of_lookup _ _ _ hlk)
    rw [levelIds_other chunks "galaxy" (by decide)]
    refine List.mem_map.mpr ⟨g, hg, ?_⟩
    have : parent = get_chunk_id g := congrArg Prod.snd hge
    exact this.symm

/-- C2's planet behaviour: entries are copied verbatim from the chunk's
parent reference. -/
theorem planet_parent_verbatim (chunks : List Chunk) :
    ∀ e ∈ planetParentMap chunks, ∃ c ∈ tiersOf chunks "planet",
      get_chunk_id c = e.1 ∧ chunkParentRef c = some e.2 := by
  refine dictFold_entries _ _ _ ?_
  intro c hc kv hkv
  cases hp : chunkParentRef c with
  | none => rw [hp] at hkv; exact absurd hkv (by simp)
  | some p =>
    rw [hp] at hkv
    obtain rfl : (get_chunk_id c, p) = kv := by injection hkv
    exact ⟨c, hc, rfl, hp⟩

theorem extract_directory_root (fp : String) (h : dirSegments fp = []) :
    extract_directory fp 2 = "root" := by
  unfold extract_directory
  rw [h]
  rfl

theorem extract_directory_of_ne (fp : String) (h : dirSegments fp ≠ []) :
    extract_directory fp 2 = strIntercalate "/"
      ((dirSegments fp).drop
        ((dirSegments fp).length - min 2 (dirSegments fp).length)) := by
  unfold extract_directory
  have hlen : (dirSegments fp).length > 0 := List.length_pos.mpr h
  rw [if_pos hlen]
  have hd : (dirSegments fp).drop
      ((dirSegments fp).length - min 2 (dirSegments fp).length) ≠ [] := by
    rw [← List.length_pos, List.length_drop]
    omega
  rw [if_pos hd]

/-- The helper fact behind `get_chunk_name`'s final fallback: the id accessor
never yields the empty string (it falls back to the literal `'unknown'`). -/
theorem get_chunk_id_ne_empty (c : Chunk) : get_chunk_id c ≠ "" := by
  unfold get_chunk_id
  cases c.chunk_id with
  | none =>
    cases c.node_id with
    | none => decide
    | some t =>
      dsimp only
      by_cases ht : t = ""
      · rw [if_pos ht]; decide
      · rw [if_neg ht]; exact ht
  | some s =>
    dsimp only
    by_cases hs : s = ""
    · rw [if_pos hs]
      cases c.node_id with
      | none => decide
      | some t =>
        dsimp only
        by_cases ht : t = ""
        · rw [if_pos ht]; decide
        · rw [if_neg ht]; exact ht
    · rw [if_neg hs]; exact hs

/-! ### Claim theorems -/

/-- C2 (corrected).  Every node has at most one entry in its level's parent
map (the maps are dicts, so their key lists are duplicate-free), and galaxy
and system values always name existing nodes one level up; but planet values
are copied verbatim from the chunks' parent references without any existence
check against the system tier (see `planet_parent_dangling_cex`). -/
theorem parent_map_integrity (chunks : List Chunk) :
    ((galaxyParentMap chunks).map Prod.fst).Nodup ∧
    ((systemParentMap chunks).map Prod.fst).Nodup ∧
    ((planetParentMap chunks).map Prod.fst).Nodup ∧
    (∀ e ∈ galaxyParentMap chunks, e.2 ∈ levelIds chunks "universe") ∧
    (∀ e ∈ systemParentMap chunks, e.2 ∈ levelIds chunks "galaxy") ∧
    (∀ e ∈ planetParentMap chunks, ∃ c ∈ tiersOf chunks "planet",
      get_chunk_id c = e.1 ∧ chunkParentRef c = some e.2) := by
  refine ⟨?_, ?_, ?_, galaxy_parent_exists chunks, system_parent_exists chunks,
    planet_parent_verbatim chunks⟩
  · exact dictFold_keys_nodup _ _
  · exact dictFold_keys_nodup _ _
  · exact dictFold_keys_nodup _ _

/-- C2, counterexample to the claim as stated: a planet chunk whose
`parent_id` is `"ghost"` yields a planet parent-map entry whose value exists
at no system-tier node. -/
theorem planet_parent_dangling_cex :
    ("m1", "ghost") ∈ planetParentMap
      [{ kind := some "method", chunk_id := some "m1",
         parent_id := some "ghost", file_path := some "a/f.py" }] ∧
    "ghost" ∉ levelIds
      [{ kind := some "method", chunk_id := some "m1",
         parent_id := some "ghost", file_path := some "a/f.py" }] "system" :=
  ⟨by decide, by decide⟩

/-- Concrete input for the C2 witness: one module, one class in the same
file, one method carrying an explicit `parent_id`. -/
def pmwChunks : List Chunk :=
  [{ kind := some "module", chunk_id := some "g1", file_path := some "a/b.py" },
   { kind := some "class", chunk_id := some "s1", file_path := some "a/b.py" },
   { kind := some "method", chunk_id := some "p1", parent_id := some "s1",
     file_path := some "a/b.py" }]

/-- C2 witness: `parent_map_integrity` applied to `pmwChunks`, discharging
each membership hypothesis concretely. -/
theorem parent_map_integrity_witness :
    (("g1", "dir:a") ∈ galaxyParentMap pmwChunks ∧
      "dir:a" ∈ levelIds pmwChunks "universe") ∧
    (("s1", "g1") ∈ systemParentMap pmwChunks ∧
      "g1" ∈ levelIds pmwChunks "galaxy") ∧
    (("p1", "s1") ∈ planetParentMap pmwChunks ∧
      ∃ c ∈ tiersOf pmwChunks "planet",
        get_chunk_id c = "p1" ∧ chunkParentRef c = some "s1") := by
  have h := parent_map_integrity pmwChunks
  exact ⟨⟨by decide, h.2.2.2.1 ("g1", "dir:a") (by decide)⟩,
         ⟨by decide, h.2.2.2.2.1 ("s1", "g1") (by decide)⟩,
         ⟨by decide, h.2.2.2.2.2 ("p1", "s1") (by decide)⟩⟩

/-- C3 (confirmed).  The name-resolution fallback chain on the three concrete
inputs of the specification: a qualified route `["class_definition:Foo"]`
resolves to `"Foo"`, a metadata export list `["Bar"]` resolves to `"Bar"`,
and a nameless `import_statement` chunk of `"src/x.py"` resolves to `"⬇x"`. -/
theorem name_resolution_examples :
    get_chunk_name { qualified_route := some ["class_definition:Foo"] } = "Foo" ∧
    get_chunk_name { metadata := some { exports := ["Bar"] } } = "Bar" ∧
    get_chunk_name { file_path := some "src/x.py", node_type := some "import_statement" } = "⬇x" :=
  ⟨by decide, by decide, by decide⟩

/-- C4 (confirmed).  Directory aggregation emits exactly one aggregate per
distinct directory key (ids are duplicate-free and are exactly the observed
keys prefixed with `dir:`), each aggregate counts exactly the chunks whose
key matches, a path with no non-hidden directory component maps to the
sentinel `"root"`, and otherwise the key is the last `2` non-hidden
directory segments. -/
theorem directory_aggregation_correct (chunks : List Chunk) :
    ((create_directory_aggregates chunks).map (fun a => a.node_id)).Nodup ∧
    (∀ s : String,
      s ∈ (create_directory_aggregates chunks).map (fun a => a.node_id) ↔
        ∃ c ∈ chunks, s = "dir:" ++ chunkDir c) ∧
    (∀ a ∈ create_directory_aggregates chunks, ∃ d : String,
      a.node_id = "dir:" ++ d ∧
      a.node_count = (chunks.filter (fun c => chunkDir c == d)).length) ∧
    (∀ fp : String, dirSegments fp = [] → extract_directory fp 2 = "root") ∧
    (∀ fp : String, dirSegments fp ≠ [] →
      extract_directory fp 2 = strIntercalate "/"
        ((dirSegments fp).drop
          ((dirSegments fp).length - min 2 (dirSegments fp).length))) := by
  refine ⟨?_, mem_aggIds chunks, ?_, extract_directory_root,
    extract_directory_of_ne⟩
  · rw [aggregate_ids]
    exact (nodup_firstDedup _).map
      (fun a b hab => str_append_left_cancel "dir:" a b hab)
  · intro a ha
    unfold create_directory_aggregates at ha
    obtain ⟨d, _, rfl⟩ := List.mem_map.mp ha
    exact ⟨d, rfl, rfl⟩

/-- Concrete input for the C4 witness. -/
def c4wChunks : List Chunk :=
  [{ kind := some "class", chunk_id := some "x1", file_path := some "a/b/c.py" }]

/-- C4 witness: `directory_aggregation_correct` applied to `c4wChunks` and to
the concrete paths `"x.py"` and `"a/b/c/d.py"`, discharging each hypothesis
concretely. -/
theorem directory_aggregation_correct_witness :
    ("dir:a/b" ∈ (create_directory_aggregates c4wChunks).map (fun a => a.node_id)) ∧
    (∃ a ∈ create_directory_aggregates c4wChunks, ∃ d : String,
      a.node_id = "dir:" ++ d ∧
      a.node_count = (c4wChunks.filter (fun c => chunkDir c == d)).length) ∧
    extract_directory "x.py" 2 = "root" ∧
    extract_directory "a/b/c/d.py" 2 = strIntercalate "/"
      ((dirSegments "a/b/c/d.py").drop
        ((dirSegments "a/b/c/d.py").length -
          min 2 (dirSegments "a/b/c/d.py").length)) := by
  have h := directory_aggregation_correct c4wChunks
  refine ⟨(h.2.1 "dir:a/b").mpr
      ⟨{ kind := some "class", chunk_id := some "x1", file_path := some "a/b/c.py" },
        by decide, by decide⟩,
    ⟨{ node_id := "dir:a/b", name := "b", kind := "directory", file := "a/b",
       full_path := "a/b", node_count := 1, is_aggregate := true,
       member_files := ["a/b/c.py"] }, by decide, ?_⟩,
    h.2.2.2.1 "x.py" (by decide),
    h.2.2.2.2 "a/b/c/d.py" (by decide)⟩
  exact h.2.2.1 _ (by decide)

/-- C9 (corrected).  A node missing its identifier or kind is not rejected:
the accessors silently substitute the literal `"unknown"` for both. -/
theorem missing_fields_default_unknown (c : Chunk)
    (hc : c.chunk_id.getD "" = "") (hn : c.node_id.getD "" = "")
    (hnt : c.node_type.getD "" = "") (hk : c.kind.getD "" = "") :
    get_chunk_id c = "unknown" ∧ get_chunk_kind c = "unknown" := by
  constructor
  · unfold get_chunk_id
    cases hcc : c.chunk_id with
    | none =>
      cases hnn : c.node_id with
      | none => rfl
      | some t =>
        rw [hnn] at hn
        have ht : t = "" := by simpa using hn
        dsimp only
        rw [if_pos ht]
    | some s =>
      rw [hcc] at hc
      have hs : s = "" := by simpa using hc
      dsimp only
      rw [if_pos hs]
      cases hnn : c.node_id with
      | none => rfl
      | some t =>
        rw [hnn] at hn
        have ht : t = "" := by simpa using hn
        dsimp only
        rw [if_pos ht]
  · unfold get_chunk_kind
    cases hcc : c.node_type with
    | none =>
      cases hkk : c.kind with
      | none => rfl
      | some t =>
        rw [hkk] at hk
        have ht : t = "" := by simpa using hk
        dsimp only
        rw [if_pos ht]
    | some s =>
      rw [hcc] at hnt
      have hs : s = "" := by simpa using hnt
      dsimp only
      rw [if_pos hs]

/-- C9, counterexample to the claim as stated: on a chunk with no fields set
at all, the engine does not raise any error; it silently produces the default
`"unknown"` for both the identifier and the kind. -/
theorem missing_fields_silently_default_cex :
    get_chunk_id {} = "unknown" ∧ get_chunk_kind {} = "unknown" :=
  ⟨by decide, by decide⟩

/-- C9 witness: `missing_fields_default_unknown` applied to the all-absent
chunk, discharging each hypothesis concretely. -/
theorem missing_fields_default_unknown_witness :
    (({} : Chunk).chunk_id.getD "" = "") ∧ (({} : Chunk).node_id.getD "" = "") ∧
    (({} : Chunk).node_type.getD "" = "") ∧ (({} : Chunk).kind.getD "" = "") ∧
    (get_chunk_id {} = "unknown" ∧ get_chunk_kind {} = "unknown") :=
  ⟨rfl, rfl, rfl, rfl, missing_fields_default_unknown {} rfl rfl rfl rfl⟩

/-- C10 (corrected).  The final `'unnamed'` fallback of the name chain is
unreachable: the id accessor never yields an empty string, so the resolved
name does not depend on the fallback literal at all, and a chunk with no
resolvable attributes is labelled `"unknown"`.  (The chain can still return
the string `"unnamed"` when an earlier step resolves to exactly that input
string - see `name_chain_returns_unnamed_cex`.) -/
theorem unnamed_literal_unreachable :
    (∀ c : Chunk, get_chunk_id c ≠ "") ∧
    (∀ (c : Chunk) (d₁ d₂ : String),
      get_chunk_name_aux d₁ c = get_chunk_name_aux d₂ c) ∧
    get_chunk_name {} = "unknown" := by
  refine ⟨get_chunk_id_ne_empty, ?_, by decide⟩
  intro c d₁ d₂
  unfold get_chunk_name_aux
  cases resolveEarlyName c with
  | some n => rfl
  | none =>
    unfold finalIdName
    by_cases hco : strContains (get_chunk_id c) ":" = true
    · rw [if_pos ⟨get_chunk_id_ne_empty c, hco⟩,
        if_pos ⟨get_chunk_id_ne_empty c, hco⟩]
    · have h1 : ¬ (get_chunk_id c ≠ "" ∧ strContains (get_chunk_id c) ":" = true) :=
        fun h => hco h.2
      rw [if_neg h1, if_neg h1, if_pos (get_chunk_id_ne_empty c),
        if_pos (get_chunk_id_ne_empty c)]

/-- C10, counterexample to the claim as stated: a chunk whose explicit name
attribute is the string `"unnamed"` makes the chain return exactly that
literal (via its first step, not via the final fallback). -/
theorem name_chain_returns_unnamed_cex :
    get_chunk_name { name := some "unnamed" } = "unnamed" := by decide

theorem relBothIn_iff (keys : List String) (r : Relationship) :
    relBothIn keys r = true ↔
      get_rel_source_id r ∈ keys ∧ get_rel_target_id r ∈ keys := by
  unfold relBothIn
  rw [Bool.and_eq_true, contains_iff_mem, contains_iff_mem]

/-- C8 (confirmed).  A relationship is serialized into a level's edge list
precisely when both endpoints are among that level's node ids, and a
relationship with a missing endpoint contributes nothing to the adjacency
sets that drive attraction (the embedding is total, so no error is raised). -/
theorem edge_level_filtering (chunks : List Chunk) (rels : List Relationship)
    (t : String) :
    (∀ e ∈ exportEdges rels (levelIds chunks t),
      e.1 ∈ levelIds chunks t ∧ e.2.1 ∈ levelIds chunks t) ∧
    (∀ r ∈ rels, get_rel_source_id r ∈ levelIds chunks t →
      get_rel_target_id r ∈ levelIds chunks t →
      (get_rel_source_id r, get_rel_target_id r, get_rel_kind r) ∈
        exportEdges rels (levelIds chunks t)) ∧
    (∀ (r : Relationship) (rels' : List Relationship) (keys : List String)
        (nid : String),
      get_rel_source_id r ∉ keys ∨ get_rel_target_id r ∉ keys →
      adjacency (r :: rels') keys nid = adjacency rels' keys nid) := by
  refine ⟨?_, ?_, ?_⟩
  · intro e he
    obtain ⟨r, hr, rfl⟩ := List.mem_map.mp he
    obtain ⟨_, hb⟩ := List.mem_filter.mp hr
    exact (relBothIn_iff _ r).mp hb
  · intro r hr hs ht
    exact List.mem_map.mpr
      ⟨r, List.mem_filter.mpr ⟨hr, (relBothIn_iff _ r).mpr ⟨hs, ht⟩⟩, rfl⟩
  · intro r rels' keys nid h
    have hb : relBothIn keys r = false := by
      cases hbv : relBothIn keys r with
      | false => rfl
      | true =>
        exfalso
        rcases h with h | h
        · exact h ((relBothIn_iff keys r).mp hbv).1
        · exact h ((relBothIn_iff keys r).mp hbv).2
    unfold adjacency
    have hpred : (relBothIn keys r &&
        (get_rel_source_id r == nid || get_rel_target_id r == nid)) = false := by
      rw [hb]
      rfl
    simp [List.filter_cons, hpred]

/-- Concrete input for the C8 witness: two galaxy-tier chunks. -/
def c8wChunks : List Chunk :=
  [{ kind := some "module", chunk_id := some "g1", file_path := some "a/b.py" },
   { kind := some "module", chunk_id := some "g2", file_path := some "a/c.py" }]

/-- Concrete relationships for the C8 witness. -/
def c8wRels : List Relationship :=
  [{ source_chunk_id := "g1", target_chunk_id := "g2", kind := "imports" }]

/-- C8 witness: `edge_level_filtering` applied to `c8wChunks`/`c8wRels` on the
galaxy level, and to a dangling relationship, discharging each hypothesis
concretely. -/
theorem edge_level_filtering_witness :
    (("g1", "g2", "imports") ∈ exportEdges c8wRels (levelIds c8wChunks "galaxy")) ∧
    ("g1" ∈ levelIds c8wChunks "galaxy" ∧ "g2" ∈ levelIds c8wChunks "galaxy") ∧
    adjacency
        ({ source_chunk_id := "g1", target_chunk_id := "zz", kind := "uses" } :: c8wRels)
        ["g1", "g2"] "g1" =
      adjacency c8wRels ["g1", "g2"] "g1" := by
  have h := edge_level_filtering c8wChunks c8wRels "galaxy"
  have hmem := h.2.1
    { source_chunk_id := "g1", target_chunk_id := "g2", kind := "imports" }
    (by decide) (by decide) (by decide)
  exact ⟨hmem, h.1 _ hmem,
    h.2.2 _ c8wRels ["g1", "g2"] "g1" (Or.inr (by decide))⟩

/-- Branch lemma for the dispatcher: above 20000 nodes the layout is the
parent-anchored clustering, untouched by the simulation. -/
theorem tier_layout_clustered {σ : Type} (env : MathEnv) (u : RandEnv σ)
    (rels : List Relationship) (tier_name : String) (ids : List String)
    (parentPos : PosMap) (pm : List (String × String)) (iterations : ℕ) (st : σ)
    (h : ids.length > 20000) :
    compute_tier_layout env u rels tier_name ids parentPos pm iterations st =
      compute_parent_anchored_positions env u ids parentPos pm st := by
  have hne : ids ≠ [] := by
    intro he
    rw [he] at h
    simp at h
  unfold compute_tier_layout
  rw [if_neg hne, if_pos h]

/-- Branch lemma for the dispatcher: between 10001 and 20000 nodes the
simulation runs with `max 10 (iterations / 4)` iterations. -/
theorem tier_layout_reduced {σ : Type} (env : MathEnv) (u : RandEnv σ)
    (rels : List Relationship) (tier_name : String) (ids : List String)
    (parentPos : PosMap) (pm : List (String × String)) (iterations : ℕ) (st : σ)
    (h1 : 10000 < ids.length) (h2 : ids.length ≤ 20000) :
    compute_tier_layout env u rels tier_name ids parentPos pm iterations st =
      (simIterate env rels parentPos pm ids.length (max 10 (iterations / 4))
        (computeTierInit env tier_name ids parentPos pm), st) := by
  have hne : ids ≠ [] := by
    intro he
    rw [he] at h1
    simp at h1
  unfold compute_tier_layout
  rw [if_neg hne, if_neg (by omega : ¬ ids.length > 20000), if_pos h1]

/-- Branch lemma for the dispatcher: at or below 10000 nodes the simulation
runs at the nominal iteration count. -/
theorem tier_layout_sim {σ : Type} (env : MathEnv) (u : RandEnv σ)
    (rels : List Relationship) (tier_name : String) (ids : List String)
    (parentPos : PosMap) (pm : List (String × String)) (iterations : ℕ) (st : σ)
    (hne : ids ≠ []) (hle : ids.length ≤ 10000) :
    compute_tier_layout env u rels tier_name ids parentPos pm iterations st =
      (simIterate env rels parentPos pm ids.length iterations
        (computeTierInit env tier_name ids parentPos pm), st) := by
  unfold compute_tier_layout
  rw [if_neg hne, if_neg (by omega : ¬ ids.length > 20000),
    if_neg (by omega : ¬ ids.length > 10000)]

/-- C1 (confirmed).  Strategy selection by population size, per level: above
20000 nodes the layout equals the parent-anchored clustering (whose
definition contains no repulsion or attraction term); from 10001 to 20000
nodes the force simulation runs with its iteration count divided by 4 and
floored at 10; at or below 10000 nodes it runs at the nominal count. -/
theorem layout_strategy_selection {σ : Type} (env : MathEnv) (u : RandEnv σ)
    (rels : List Relationship) (tier_name : String) (ids : List String)
    (parentPos : PosMap) (pm : List (String × String)) (iterations : ℕ) (st : σ) :
    (ids.length > 20000 →
      compute_tier_layout env u rels tier_name ids parentPos pm iterations st =
        compute_parent_anchored_positions env u ids parentPos pm st) ∧
    (10000 < ids.length → ids.length ≤ 20000 →
      compute_tier_layout env u rels tier_name ids parentPos pm iterations st =
        (simIterate env rels parentPos pm ids.length (max 10 (iterations / 4))
          (computeTierInit env tier_name ids parentPos pm), st)) ∧
    (ids ≠ [] → ids.length ≤ 10000 →
      compute_tier_layout env u rels tier_name ids parentPos pm iterations st =
        (simIterate env rels parentPos pm ids.length iterations
          (computeTierInit env tier_name ids parentPos pm), st)) :=
  ⟨tier_layout_clustered env u rels tier_name ids parentPos pm iterations st,
   tier_layout_reduced env u rels tier_name ids parentPos pm iterations st,
   tier_layout_sim env u rels tier_name ids parentPos pm iterations st⟩

/-- Concrete abstract-primitive environment for witnesses. -/
def wEnv : MathEnv := ⟨id, id, id, 0, fun _ => 0⟩

/-- Concrete random source for witnesses (always returns the lower bound). -/
def wRand : RandEnv Unit := ⟨fun s lo _ => (lo, s)⟩

/-- C1 witness: `layout_strategy_selection` applied at populations 20001,
10001 and 1, discharging each population hypothesis concretely. -/
theorem layout_strategy_selection_witness :
    ((List.replicate 20001 "n").length > 20000 ∧
      compute_tier_layout wEnv wRand [] "planet" (List.replicate 20001 "n")
          [] [] 100 () =
        compute_parent_anchored_positions wEnv wRand (List.replicate 20001 "n")
          [] [] ()) ∧
    (10000 < (List.replicate 10001 "n").length ∧
      (List.replicate 10001 "n").length ≤ 20000 ∧
      compute_tier_layout wEnv wRand [] "planet" (List.replicate 10001 "n")
          [] [] 100 () =
        (simIterate wEnv [] [] [] (List.replicate 10001 "n").length
          (max 10 (100 / 4))
          (computeTierInit wEnv "planet" (List.replicate 10001 "n") [] []), ())) ∧
    ((["n"] : List String) ≠ [] ∧ (["n"] : List String).length ≤ 10000 ∧
      compute_tier_layout wEnv wRand [] "planet" ["n"] [] [] 100 () =
        (simIterate wEnv [] [] [] (["n"] : List String).length 100
          (computeTierInit wEnv "planet" ["n"] [] []), ())) := by
  have h1 : (List.replicate 20001 "n").length > 20000 := by
    rw [List.length_replicate]
    omega
  have h2a : 10000 < (List.replicate 10001 "n").length := by
    rw [List.length_replicate]
    omega
  have h2b : (List.replicate 10001 "n").length ≤ 20000 := by
    rw [List.length_replicate]
    omega
  have h3a : (["n"] : List String) ≠ [] := by decide
  have h3b : (["n"] : List String).length ≤ 10000 := by decide
  exact ⟨⟨h1, (layout_strategy_selection wEnv wRand [] "planet" _ [] [] 100 ()).1 h1⟩,
    ⟨h2a, h2b, (layout_strategy_selection wEnv wRand [] "planet" _ [] [] 100 ()).2.1 h2a h2b⟩,
    ⟨h3a, h3b, (layout_strategy_selection wEnv wRand [] "planet" _ [] [] 100 ()).2.2 h3a h3b⟩⟩

/-- C6 (confirmed).  With each derived tier small enough for the full
simulation, `compute_positions` runs the galaxy and system tiers at half the
base iteration count and the planet tier at a quarter of it, each anchored to
the previous tier's finished positions. -/
theorem derived_tier_iteration_counts {σ : Type} (env : MathEnv) (u : RandEnv σ)
    (chunks : List Chunk) (rels : List Relationship) (base : ℕ) (st : σ)
    (hg1 : levelIds chunks "galaxy" ≠ [])
    (hg2 : (levelIds chunks "galaxy").length ≤ 10000)
    (hs1 : levelIds chunks "system" ≠ [])
    (hs2 : (levelIds chunks "system").length ≤ 10000)
    (hp1 : levelIds chunks "planet" ≠ [])
    (hp2 : (levelIds chunks "planet").length ≤ 10000) :
    (compute_positions env u chunks rels base st).1.galaxyPos =
      simIterate env rels (compute_positions env u chunks rels base st).1.universePos
        (galaxyParentMap chunks) (levelIds chunks "galaxy").length (base / 2)
        (computeTierInit env "galaxy" (levelIds chunks "galaxy")
          (compute_positions env u chunks rels base st).1.universePos
          (galaxyParentMap chunks)) ∧
    (compute_positions env u chunks rels base st).1.systemPos =
      simIterate env rels (compute_positions env u chunks rels base st).1.galaxyPos
        (systemParentMap chunks) (levelIds chunks "system").length (base / 2)
        (computeTierInit env "system" (levelIds chunks "system")
          (compute_positions env u chunks rels base st).1.galaxyPos
          (systemParentMap chunks)) ∧
    (compute_positions env u chunks rels base st).1.planetPos =
      simIterate env rels (compute_positions env u chunks rels base st).1.systemPos
        (planetParentMap chunks) (levelIds chunks "planet").length (base / 4)
        (computeTierInit env "planet" (levelIds chunks "planet")
          (compute_positions env u chunks rels base st).1.systemPos
          (planetParentMap chunks)) := by
  simp only [compute_positions]
  rw [tier_layout_sim env u rels "galaxy" _ _ _ _ _ hg1 hg2,
    tier_layout_sim env u rels "system" _ _ _ _ _ hs1 hs2,
    tier_layout_sim env u rels "planet" _ _ _ _ _ hp1 hp2]
  exact ⟨rfl, rfl, rfl⟩

/-- Concrete input for the C6 witness: one chunk in each derived tier. -/
def c6wChunks : List Chunk :=
  [{ kind := some "module", chunk_id := some "g1", file_path := some "a/b.py" },
   { kind := some "class", chunk_id := some "s1", file_path := some "a/b.py" },
   { kind := some "method", chunk_id := some "p1", parent_id := some "s1",
     file_path := some "a/b.py" }]

/-- C6 witness: `derived_tier_iteration_counts` applied to `c6wChunks` with
base count 100, discharging each hypothesis concretely. -/
theorem derived_tier_iteration_counts_witness :
    (levelIds c6wChunks "galaxy" ≠ [] ∧
      (levelIds c6wChunks "galaxy").length ≤ 10000) ∧
    (levelIds c6wChunks "system" ≠ [] ∧
      (levelIds c6wChunks "system").length ≤ 10000) ∧
    (levelIds c6wChunks "planet" ≠ [] ∧
      (levelIds c6wChunks "planet").length ≤ 10000) ∧
    ((compute_positions wEnv wRand c6wChunks [] 100 ()).1.galaxyPos =
      simIterate wEnv [] (compute_positions wEnv wRand c6wChunks [] 100 ()).1.universePos
        (galaxyParentMap c6wChunks) (levelIds c6wChunks "galaxy").length (100 / 2)
        (computeTierInit wEnv "galaxy" (levelIds c6wChunks "galaxy")
          (compute_positions wEnv wRand c6wChunks [] 100 ()).1.universePos
          (galaxyParentMap c6wChunks)) ∧
    (compute_positions wEnv wRand c6wChunks [] 100 ()).1.systemPos =
      simIterate wEnv [] (compute_positions wEnv wRand c6wChunks [] 100 ()).1.galaxyPos
        (systemParentMap c6wChunks) (levelIds c6wChunks "system").length (100 / 2)
        (computeTierInit wEnv "system" (levelIds c6wChunks "system")
          (compute_positions wEnv wRand c6wChunks [] 100 ()).1.galaxyPos
          (systemParentMap c6wChunks)) ∧
    (compute_positions wEnv wRand c6wChunks [] 100 ()).1.planetPos =
      simIterate wEnv [] (compute_positions wEnv wRand c6wChunks [] 100 ()).1.systemPos
        (planetParentMap c6wChunks) (levelIds c6wChunks "planet").length (100 / 4)
        (computeTierInit wEnv "planet" (levelIds c6wChunks "planet")
          (compute_positions wEnv wRand c6wChunks [] 100 ()).1.systemPos
          (planetParentMap c6wChunks))) :=
  ⟨⟨by decide, by decide⟩, ⟨by decide, by decide⟩, ⟨by decide, by decide⟩,
   derived_tier_iteration_counts wEnv wRand c6wChunks [] 100 ()
     (by decide) (by decide) (by decide) (by decide) (by decide) (by decide)⟩

theorem enumFrom_map_snd {α : Type} (l : List α) :
    ∀ n : ℕ, (l.enumFrom n).map Prod.snd = l := by
  induction l with
  | nil => intro n; rfl
  | cons a t ih =>
    intro n
    simp only [List.enumFrom, List.map_cons, ih]

theorem enum_map_snd {α : Type} (l : List α) : l.enum.map Prod.snd = l :=
  enumFrom_map_snd l 0

theorem keys_simStep (env : MathEnv) (rels : List Relationship) (parentPos : PosMap)
    (pm : List (String × String)) (n : ℕ) (keys : List String)
    (iterations iteration : ℕ) (D : PosMap) :
    (simStep env rels parentPos pm n keys iterations iteration D).map Prod.fst =
      D.map Prod.fst := by
  unfold simStep
  rw [List.map_map]
  rfl

theorem keys_simFold (env : MathEnv) (rels : List Relationship) (parentPos : PosMap)
    (pm : List (String × String)) (n : ℕ) (keys : List String) (iters : ℕ) :
    ∀ (its : List ℕ) (D : PosMap),
      ((its.foldl (fun D it => simStep env rels parentPos pm n keys iters it D) D).map
        Prod.fst) = D.map Prod.fst := by
  intro its
  induction its with
  | nil => intro D; rfl
  | cons a t ih =>
    intro D
    rw [List.foldl_cons, ih, keys_simStep]

theorem keys_simIterate (env : MathEnv) (rels : List Relationship) (parentPos : PosMap)
    (pm : List (String × String)) (n iters : ℕ) (D0 : PosMap) :
    (simIterate env rels parentPos pm n iters D0).map Prod.fst = D0.map Prod.fst := by
  unfold simIterate
  exact keys_simFold env rels parentPos pm n (D0.map Prod.fst) iters (List.range iters) D0

theorem mem_keys_computeTierInit (env : MathEnv) (tier_name : String)
    (ids : List String) (parentPos : PosMap) (pm : List (String × String))
    (x : String) :
    x ∈ (computeTierInit env tier_name ids parentPos pm).map Prod.fst ↔ x ∈ ids := by
  unfold computeTierInit
  rw [mem_keys_dictFold]
  constructor
  · rintro ⟨c, hc, kv, hkv, hx⟩
    have hsnd : c.2 = kv.1 := by
      have : kv = (c.2, initPosition env tier_name ids.length parentPos pm c.1 c.2) := by
        injection hkv with h
        exact h.symm
      rw [this]
    rw [← enum_map_snd ids]
    exact List.mem_map.mpr ⟨c, hc, hsnd.trans hx⟩
  · intro hx
    rw [← enum_map_snd ids] at hx
    obtain ⟨c, hc, hcx⟩ := List.mem_map.mp hx
    exact ⟨c, hc, _, rfl, hcx⟩

theorem keys_insertFold {σ : Type} (val : (PosMap × σ) → ℕ × String → Pt)
    (nst : (PosMap × σ) → ℕ × String → σ) :
    ∀ (l : List (ℕ × String)) (acc : PosMap × σ) (x : String),
      x ∈ (insertFold val nst l acc).1.map Prod.fst ↔
        x ∈ acc.1.map Prod.fst ∨ x ∈ l.map Prod.snd := by
  intro l
  induction l with
  | nil => intro acc x; simp [insertFold]
  | cons c t ih =>
    intro acc x
    have hstep : insertFold val nst (c :: t) acc =
        insertFold val nst t (dictInsert acc.1 c.2 (val acc c), nst acc c) := rfl
    rw [hstep, ih, mem_keys_dictInsert, List.map_cons, List.mem_cons]
    tauto

theorem nodup_insertFold {σ : Type} (val : (PosMap × σ) → ℕ × String → Pt)
    (nst : (PosMap × σ) → ℕ × String → σ) :
    ∀ (l : List (ℕ × String)) (acc : PosMap × σ),
      (acc.1.map Prod.fst).Nodup → ((insertFold val nst l acc).1.map Prod.fst).Nodup := by
  intro l
  induction l with
  | nil => intro acc h; exact h
  | cons c t ih =>
    intro acc h
    exact ih (dictInsert acc.1 c.2 (val acc c), nst acc c)
      (nodup_keys_dictInsert _ _ _ h)

theorem keys_anchoredGroup {σ : Type} (env : MathEnv) (u : RandEnv σ)
    (parentPos : PosMap) (acc : PosMap × σ) (p : String) (cids : List String)
    (x : String) :
    x ∈ (anchoredGroup env u parentPos acc p cids).1.map Prod.fst ↔
      x ∈ acc.1.map Prod.fst ∨ x ∈ cids := by
  simp only [anchoredGroup]
  rw [keys_insertFold, enum_map_snd]

theorem nodup_anchoredGroup {σ : Type} (env : MathEnv) (u : RandEnv σ)
    (parentPos : PosMap) (acc : PosMap × σ) (p : String) (cids : List String)
    (h : (acc.1.map Prod.fst).Nodup) :
    ((anchoredGroup env u parentPos acc p cids).1.map Prod.fst).Nodup := by
  simp only [anchoredGroup]
  exact nodup_insertFold _ _ _ _ h

theorem keys_groupFold {σ : Type} (env : MathEnv) (u : RandEnv σ)
    (parentPos : PosMap) (pm : List (String × String)) (ids : List String) :
    ∀ (ps : List String) (acc : PosMap × σ) (x : String),
      x ∈ ((ps.foldl (fun acc p => anchoredGroup env u parentPos acc p
          (childIdsOf pm ids p)) acc).1.map Prod.fst) ↔
        x ∈ acc.1.map Prod.fst ∨ ∃ p ∈ ps, x ∈ childIdsOf pm ids p := by
  intro ps
  induction ps with
  | nil => intro acc x; simp
  | cons q t ih =>
    intro acc x
    rw [List.foldl_cons, ih, keys_anchoredGroup]
    constructor
    · rintro ((h | h) | ⟨p, hp, h⟩)
      · exact Or.inl h
      · exact Or.inr ⟨q, List.mem_cons_self _ _, h⟩
      · exact Or.inr ⟨p, List.mem_cons_of_mem _ hp, h⟩
    · rintro (h | ⟨p, hp, h⟩)
      · exact Or.inl (Or.inl h)
      · rcases List.mem_cons.mp hp with rfl | hp2
        · exact Or.inl (Or.inr h)
        · exact Or.inr ⟨p, hp2, h⟩

theorem nodup_groupFold {σ : Type} (env : MathEnv) (u : RandEnv σ)
    (parentPos : PosMap) (pm : List (String × String)) (ids : List String) :
    ∀ (ps : List String) (acc : PosMap × σ),
      (acc.1.map Prod.fst).Nodup →
      (((ps.foldl (fun acc p => anchoredGroup env u parentPos acc p
          (childIdsOf pm ids p)) acc).1.map Prod.fst)).Nodup := by
  intro ps
  induction ps with
  | nil => intro acc h; exact h
  | cons q t ih =>
    intro acc h
    exact ih _ (nodup_anchoredGroup env u parentPos acc q _ h)

theorem keys_anchoredOrphans {σ : Type} (u : RandEnv σ) (orphans : List String)
    (acc : PosMap × σ) (x : String) :
    x ∈ (anchoredOrphans u orphans acc).1.map Prod.fst ↔
      x ∈ acc.1.map Prod.fst ∨ x ∈ orphans := by
  by_cases h : orphans.length > 0
  · simp only [anchoredOrphans, if_pos h]
    rw [keys_insertFold, enum_map_snd]
  · have he : orphans = [] := List.length_eq_zero.mp (by omega)
    subst he
    simp [anchoredOrphans]

theorem nodup_anchoredOrphans {σ : Type} (u : RandEnv σ) (orphans : List String)
    (acc : PosMap × σ) (h : (acc.1.map Prod.fst).Nodup) :
    ((anchoredOrphans u orphans acc).1.map Prod.fst).Nodup := by
  by_cases ho : orphans.length > 0
  · simp only [anchoredOrphans, if_pos ho]
    exact nodup_insertFold _ _ _ _ h
  · simp only [anchoredOrphans, if_neg ho]
    exact h

theorem mem_ids_partition (pm : List (String × String)) (ids : List String)
    (x : String) :
    x ∈ ids ↔
      (∃ p ∈ groupParentKeys pm ids, x ∈ childIdsOf pm ids p) ∨
        x ∈ orphanIds pm ids := by
  constructor
  · intro hx
    cases hp : parentOfId pm x with
    | some p =>
      left
      refine ⟨p, ?_, ?_⟩
      · unfold groupParentKeys
        rw [mem_firstDedup]
        exact List.mem_filterMap.mpr ⟨x, hx, hp⟩
      · unfold childIdsOf
        refine List.mem_filter.mpr ⟨hx, ?_⟩
        rw [hp]
        exact beq_self_eq_true _
    | none =>
      right
      unfold orphanIds
      refine List.mem_filter.mpr ⟨hx, ?_⟩
      rw [hp]
      rfl
  · rintro (⟨p, _, h⟩ | h)
    · exact (List.mem_filter.mp h).1
    · exact (List.mem_filter.mp h).1

theorem mem_keys_anchored {σ : Type} (env : MathEnv) (u : RandEnv σ)
    (ids : List String) (parentPos : PosMap) (pm : List (String × String))
    (st : σ) (x : String) :
    x ∈ (compute_parent_anchored_positions env u ids parentPos pm st).1.map
      Prod.fst ↔ x ∈ ids := by
  simp only [compute_parent_anchored_positions]
  rw [keys_anchoredOrphans, keys_groupFold, mem_ids_partition pm ids x]
  simp

theorem nodup_keys_anchored {σ : Type} (env : MathEnv) (u : RandEnv σ)
    (ids : List String) (parentPos : PosMap) (pm : List (String × String))
    (st : σ) :
    ((compute_parent_anchored_positions env u ids parentPos pm st).1.map
      Prod.fst).Nodup := by
  simp only [compute_parent_anchored_positions]
  exact nodup_anchoredOrphans _ _ _
    (nodup_groupFold env u parentPos pm ids _ _ (by simp))

theorem lookup_exportPositions (D : PosMap) (nid : String) :
    (exportPositions D).lookup nid =
      (D.lookup nid).map (fun q => (round2 q.1, round2 q.2)) := by
  induction D with
  | nil => rfl
  | cons e t ih =>
    obtain ⟨k, q⟩ := e
    simp only [exportPositions, List.map_cons, List.lookup]
    cases hb : nid == k with
    | false => simpa [exportPositions] using ih
    | true => rfl

/-- C7 (confirmed).  Whatever strategy the dispatcher selects (force
simulation, parent-anchored clustering - orphans included - or the skip of
an empty level), the resulting positions dict holds exactly one entry per
node id of the level, and serialization maps each stored coordinate through
rounding to 2 decimal places. -/
theorem layout_positions_complete {σ : Type} (env : MathEnv) (u : RandEnv σ)
    (rels : List Relationship) (tier_name : String) (ids : List String)
    (parentPos : PosMap) (pm : List (String × String)) (iterations : ℕ)
    (st : σ) :
    ((compute_tier_layout env u rels tier_name ids parentPos pm iterations
      st).1.map Prod.fst).Nodup ∧
    (∀ x : String,
      x ∈ (compute_tier_layout env u rels tier_name ids parentPos pm iterations
        st).1.map Prod.fst ↔ x ∈ ids) ∧
    (∀ (D : PosMap) (nid : String),
      (exportPositions D).lookup nid =
        (D.lookup nid).map (fun q => (round2 q.1, round2 q.2))) := by
  refine ⟨?_, ?_, lookup_exportPositions⟩
  · by_cases hne : ids = []
    · simp only [compute_tier_layout, if_pos hne]
      simp
    · by_cases hbig : ids.length > 20000
      · simp only [compute_tier_layout, if_neg hne, if_pos hbig]
        exact nodup_keys_anchored env u ids parentPos pm st
      · simp only [compute_tier_layout, if_neg hne, if_neg hbig]
        rw [keys_simIterate]
        exact dictFold_keys_nodup _ _
  · intro x
    by_cases hne : ids = []
    · simp only [compute_tier_layout, if_pos hne]
      simp [hne]
    · by_cases hbig : ids.length > 20000
      · simp only [compute_tier_layout, if_neg hne, if_pos hbig]
        exact mem_keys_anchored env u ids parentPos pm st x
      · simp only [compute_tier_layout, if_neg hne, if_neg hbig]
        rw [keys_simIterate]
        exact mem_keys_computeTierInit env tier_name ids parentPos pm x

/-! ### Order-independence of the force simulation (C5) -/

theorem lookup_perm {β : Type} {D₁ D₂ : List (String × β)} (h : D₁.Perm D₂) :
    (D₁.map Prod.fst).Nodup → ∀ k : String, D₁.lookup k = D₂.lookup k := by
  induction h with
  | nil => intro _ k; rfl
  | cons e h ih =>
    intro hnd k
    obtain ⟨a, b⟩ := e
    simp only [List.lookup]
    cases hka : k == a with
    | true => rfl
    | false =>
      exact ih (by simpa using (List.nodup_cons.mp (by simpa using hnd)).2) k
  | swap x y l =>
    intro hnd k
    obtain ⟨a, b⟩ := x
    obtain ⟨c, d⟩ := y
    have hca : c ≠ a := by
      have h' := hnd
      simp at h'
      exact h'.1.1
    simp only [List.lookup]
    cases hkc : k == c with
    | true =>
      cases hka : k == a with
      | true =>
        exfalso
        exact hca ((beq_iff_eq.mp hkc).symm.trans (beq_iff_eq.mp hka))
      | false => rfl
    | false =>
      cases hka : k == a with
      | true => rfl
      | false => rfl
  | trans h₁ h₂ ih₁ ih₂ =>
    intro hnd k
    rw [ih₁ hnd k, ih₂ (((h₁.map Prod.fst).nodup_iff).mp hnd) k]

theorem contains_perm {l₁ l₂ : List String} (h : l₁.Perm l₂) (a : String) :
    l₁.contains a = l₂.contains a := by
  cases hc1 : l₁.contains a with
  | true =>
    exact ((contains_iff_mem l₂ a).mpr
      (h.mem_iff.mp ((contains_iff_mem l₁ a).mp hc1))).symm
  | false =>
    cases hc2 : l₂.contains a with
    | false => rfl
    | true =>
      exfalso
      have := (contains_iff_mem l₁ a).mpr (h.mem_iff.mpr ((contains_iff_mem l₂ a).mp hc2))
      rw [hc1] at this
      exact Bool.false_ne_true this

theorem adjacency_perm (rels : List Relationship) {K₁ K₂ : List String}
    (h : K₁.Perm K₂) (nid : String) :
    adjacency rels K₁ nid = adjacency rels K₂ nid := by
  unfold adjacency
  have hf : ∀ r ∈ rels,
      (relBothIn K₁ r && (get_rel_source_id r == nid || get_rel_target_id r == nid)) =
      (relBothIn K₂ r && (get_rel_source_id r == nid || get_rel_target_id r == nid)) := by
    intro r _
    unfold relBothIn
    rw [contains_perm h, contains_perm h]
  rw [List.filter_congr hf]

theorem repulsionForce_perm (env : MathEnv) (k_repel : ℚ) {D₁ D₂ : PosMap}
    (h : D₁.Perm D₂) (nid : String) (p : Pt) :
    repulsionForce env k_repel D₁ nid p = repulsionForce env k_repel D₂ nid p := by
  unfold repulsionForce
  exact ((h.filter _).map _).sum_eq

theorem attractionForce_congr (env : MathEnv) (rels : List Relationship)
    {K₁ K₂ : List String} (hK : K₁.Perm K₂) {D₁ D₂ : PosMap} (h : D₁.Perm D₂)
    (hnd : (D₁.map Prod.fst).Nodup) (nid : String) (p : Pt) :
    attractionForce env rels K₁ D₁ nid p = attractionForce env rels K₂ D₂ nid p := by
  unfold attractionForce
  rw [adjacency_perm rels hK nid]
  refine Finset.sum_congr rfl ?_
  intro nb _
  rw [lookup_perm h hnd nb]

theorem stepEntry_congr (env : MathEnv) (rels : List Relationship)
    (parentPos : PosMap) (pm : List (String × String)) (n : ℕ)
    {K₁ K₂ : List String} (hK : K₁.Perm K₂) (iterations iteration : ℕ)
    {D₁ D₂ : PosMap} (h : D₁.Perm D₂) (hnd : (D₁.map Prod.fst).Nodup) :
    stepEntry env rels parentPos pm n K₁ iterations iteration D₁ =
      stepEntry env rels parentPos pm n K₂ iterations iteration D₂ := by
  funext e
  unfold stepEntry
  rw [repulsionForce_perm env _ h, attractionForce_congr env rels hK h hnd]

theorem simStep_perm (env : MathEnv) (rels : List Relationship)
    (parentPos : PosMap) (pm : List (String × String)) (n : ℕ)
    {K₁ K₂ : List String} (hK : K₁.Perm K₂) (iterations iteration : ℕ)
    {D₁ D₂ : PosMap} (h : D₁.Perm D₂) (hnd : (D₁.map Prod.fst).Nodup) :
    (simStep env rels parentPos pm n K₁ iterations iteration D₁).Perm
      (simStep env rels parentPos pm n K₂ iterations iteration D₂) := by
  unfold simStep
  rw [stepEntry_congr env rels parentPos pm n hK iterations iteration h hnd]
  exact h.map _

theorem simFold_perm (env : MathEnv) (rels : List Relationship)
    (parentPos : PosMap) (pm : List (String × String)) (n : ℕ)
    {K₁ K₂ : List String} (hK : K₁.Perm K₂) (iters : ℕ) :
    ∀ (its : List ℕ) {D₁ D₂ : PosMap}, D₁.Perm D₂ → (D₁.map Prod.fst).Nodup →
      (its.foldl (fun D it => simStep env rels parentPos pm n K₁ iters it D) D₁).Perm
        (its.foldl (fun D it => simStep env rels parentPos pm n K₂ iters it D) D₂) := by
  intro its
  induction its with
  | nil => intro D₁ D₂ h _; exact h
  | cons a t ih =>
    intro D₁ D₂ h hnd
    rw [List.foldl_cons, List.foldl_cons]
    refine ih (simStep_perm env rels parentPos pm n hK iters a h hnd) ?_
    rw [keys_simStep]
    exact hnd

/-- C5 (confirmed).  Within one iteration every force is computed from the
start-of-iteration positions (structurally: `stepEntry` reads only the
unmodified dict `D`, and `simStep` updates positions only after mapping it
over every node), so the simulation - a pure function, hence deterministic
for a fixed initialization - assigns every node the same position regardless
of the order in which the nodes are processed: permuting the position dict
leaves every lookup of the iterated simulation unchanged. -/
theorem force_sim_order_independent (env : MathEnv) (rels : List Relationship)
    (parentPos : PosMap) (pm : List (String × String)) (n iters : ℕ)
    (D₁ D₂ : PosMap) (hperm : D₁.Perm D₂) (hnd : (D₁.map Prod.fst).Nodup) :
    ∀ nid : String,
      (simIterate env rels parentPos pm n iters D₁).lookup nid =
        (simIterate env rels parentPos pm n iters D₂).lookup nid := by
  intro nid
  have hres : (simIterate env rels parentPos pm n iters D₁).Perm
      (simIterate env rels parentPos pm n iters D₂) := by
    unfold simIterate
    exact simFold_perm env rels parentPos pm n (hperm.map Prod.fst) iters
      (List.range iters) hperm hnd
  have hndres : ((simIterate env rels parentPos pm n iters D₁).map Prod.fst).Nodup := by
    rw [keys_simIterate]
    exact hnd
  exact lookup_perm hres hndres nid

/-- C5 witness: `force_sim_order_independent` applied to a two-node dict and
its transposition, discharging the permutation and key-uniqueness hypotheses
concretely. -/
theorem force_sim_order_independent_witness :
    (([("a", ((0 : ℚ), (0 : ℚ))), ("b", (1, 0))] : PosMap).Perm
      [("b", (1, 0)), ("a", (0, 0))]) ∧
    ((([("a", ((0 : ℚ), (0 : ℚ))), ("b", (1, 0))] : PosMap).map Prod.fst).Nodup) ∧
    (simIterate wEnv [] [] [] 2 1 [("a", (0, 0)), ("b", (1, 0))]).lookup "a" =
      (simIterate wEnv [] [] [] 2 1 [("b", (1, 0)), ("a", (0, 0))]).lookup "a" := by
  have hp : (([("a", ((0 : ℚ), (0 : ℚ))), ("b", (1, 0))] : PosMap).Perm
      [("b", (1, 0)), ("a", (0, 0))]) :=
    List.Perm.swap ("b", (1, 0)) ("a", (0, 0)) []
  have hnd : ((([("a", ((0 : ℚ), (0 : ℚ))), ("b", (1, 0))] : PosMap).map
      Prod.fst).Nodup) := by
    simp
  exact ⟨hp, hnd,
    force_sim_order_independent wEnv [] [] [] 2 1 _ _ hp hnd "a"⟩

end SemanticLens
